import Mathlib

/-!
A verification development for the `interpreter_go` repository: a shallow
embedding of its scanner, recursive-descent parser, runtime value model and
tree-walking interpreter, together with theorems settling the specification
claims about them.

Modelling conventions:
* Go source strings are indexed byte by byte; they are modelled as
  `List Char`.  Every input occurring in the claims is ASCII, where Go's
  byte-wise indexing agrees with `List Char` indexing.
* Go `float64` is modelled as `Rat`: every numeric value occurring in the
  claims is exactly representable in binary64, and the binary64 operations
  on them are exact, so they agree with rational arithmetic.
* A Go runtime panic (index out of range, nil-pointer dereference, failed
  type assertion) and a `log.Fatal`/`log.Fatalf` call are modelled as
  explicit error results of the embedded functions.
* The Go `for` loops of the scanner are modelled as fuel-indexed recursive
  functions; each call site passes fuel that provably exceeds the number of
  iterations the loop can make (every iteration advances the cursor), so
  the fuel bound is never the reason a run stops.
-/

deriving instance DecidableEq for Except

namespace InterpGo

/-- The `TokenType` enumeration of `internal/scanner/scanner.go`. -/
inductive TokenType where
  | LEFT_PAREN | RIGHT_PAREN | LEFT_BRACE | RIGHT_BRACE
  | COMMA | DOT | MINUS | PLUS | SEMICOLON | SLASH | STAR
  | BANG | BANG_EQUAL | EQUAL | EQUAL_EQUAL
  | GREATER | GREATER_EQUAL | LESS | LESS_EQUAL
  | IDENTIFIER | STRING | NUMBER
  | AND | CLASS | ELSE | FALSE | FUN | FOR | IF | NIL | OR
  | PRINT | RETURN | SUPER | THIS | TRUE | VAR | WHILE
  | EOF
deriving DecidableEq

/-- The dynamic type of the `Literal any` field of a `Token`.  The scanner
stores either nothing (`nilL`), a `float64` (`numL`, for NUMBER tokens) or a
`string` (`strL`, for STRING, IDENTIFIER and keyword tokens).  `boolL` is
the `bool` case of the `any` type; the scanner never stores it, which is
exactly what claim C2 is about. -/
inductive LitVal where
  | nilL
  | numL (q : Rat)
  | strL (s : String)
  | boolL (b : Bool)
deriving DecidableEq

/-- The `literal.(float64)` type assertion of Go; `none` models the panic of
a failed single-value assertion. -/
def LitVal.asNum : LitVal → Option Rat
  | .numL q => some q
  | _ => none

/-- The `literal.(string)` type assertion of Go. -/
def LitVal.asStr : LitVal → Option String
  | .strL s => some s
  | _ => none

/-- The `literal.(bool)` type assertion of Go. -/
def LitVal.asBool : LitVal → Option Bool
  | .boolL b => some b
  | _ => none

/-- `scanner.Token`. -/
structure Token where
  type : TokenType
  lexeme : String
  literal : LitVal
  line : Nat
deriving DecidableEq

/-- `scanner.LexScanner`: source text plus scanning state. -/
structure ScanState where
  source : List Char
  tokens : List Token
  start : Nat
  current : Nat
  line : Nat
deriving DecidableEq

/-- Failure modes of the scanner.  `oob` is a Go "index out of range" panic
(indexing `ls.source` outside its bounds); `fatalMsg` is a `log.Fatalf`
call, which terminates the host process; `noFuel` marks fuel exhaustion of
the embedding (never reached from the fuel bounds used below). -/
inductive ScanErr where
  | oob
  | fatalMsg (msg : String)
  | noFuel
deriving DecidableEq

/-- `keywordsMap` of scanner.go. -/
def keywordsMap : List (String × TokenType) :=
  [("and", .AND), ("class", .CLASS), ("else", .ELSE), ("false", .FALSE),
   ("fun", .FUN), ("for", .FOR), ("if", .IF), ("nil", .NIL), ("or", .OR),
   ("print", .PRINT), ("return", .RETURN), ("super", .SUPER),
   ("this", .THIS), ("true", .TRUE), ("var", .VAR), ("while", .WHILE)]

/-- `unicode.IsDigit` applied to a source byte: the ASCII decimal digits
(no other code point below 256 is in the Nd category). -/
def isDigitCh (c : Char) : Bool := '0' ≤ c && c ≤ '9'

/-- `unicode.IsLetter` applied to a source byte, restricted to ASCII (Go
additionally accepts some Latin-1 letters; the claims use ASCII only). -/
def isLetterCh (c : Char) : Bool := ('a' ≤ c && c ≤ 'z') || ('A' ≤ c && c ≤ 'Z')

/-- `ls.isAtEnd()`. -/
def ScanState.isAtEnd (s : ScanState) : Bool := s.source.length ≤ s.current

/-- `ls.peek()`: the `isAtEnd` bounds test is expressed through the
optional index (`get?` is `none` exactly when `isAtEnd`).  Note the
sentinel returned at end of input is the character `'0'` — the digit zero,
not a NUL byte. -/
def ScanState.peek (s : ScanState) : Char :=
  match s.source.get? s.current with
  | some c => c
  | none => '0'

/-- `ls.peekNext()` (`next := current + 1`), with the same `'0'`
sentinel. -/
def ScanState.peekNext (s : ScanState) : Char :=
  match s.source.get? (s.current + 1) with
  | some c => c
  | none => '0'

/-- `ls.advance()`: reads `ls.source[ls.current]` unconditionally, so it
panics (`.error .oob`) when the cursor is at or past the end. -/
def ScanState.advance (s : ScanState) : Except ScanErr (Char × ScanState) :=
  match s.source.get? s.current with
  | some c => .ok (c, { s with current := s.current + 1 })
  | none => .error .oob

/-- `ls.match(expected)`: the `isAtEnd` guard is the `none` case of the
optional index. -/
def ScanState.matchCh (s : ScanState) (expected : Char) : Bool × ScanState :=
  match s.source.get? s.current with
  | none => (false, s)
  | some c =>
    if c != expected then (false, s)
    else (true, { s with current := s.current + 1 })

/-- `ls.addToken(tokenType, literal)`: the lexeme is
`ls.source[ls.start:ls.current]`. -/
def ScanState.addToken (s : ScanState) (tokenType : TokenType) (literal : LitVal) :
    ScanState :=
  let lexeme : String := ⟨(s.source.drop s.start).take (s.current - s.start)⟩
  { s with tokens := s.tokens ++ [⟨tokenType, lexeme, literal, s.line⟩] }

/-- The digit-consuming loop of `readNumber`
(`for unicode.IsDigit(rune(ls.peek())) { ls.advance() }`).  Because `peek`
returns the digit `'0'` at end of input, the loop calls `advance` there and
panics with an index out of range. -/
def digitLoop : Nat → ScanState → Except ScanErr ScanState
  | 0, _ => .error .noFuel
  | fuel + 1, s =>
    if isDigitCh s.peek then
      match s.advance with
      | .ok (_, s') => digitLoop fuel s'
      | .error e => .error e
    else .ok s

/-- `strconv.ParseFloat` on the lexemes `readNumber` can produce (a digit
run, optionally `.` and a digit run); exact for the claims' literals. -/
def parseFloatQ (cs : List Char) : Rat :=
  let natOf : List Char → Nat := fun ds => ds.foldl (fun a c => a * 10 + (c.toNat - 48)) 0
  let intPart := cs.takeWhile (fun c => c ≠ '.')
  match cs.dropWhile (fun c => c ≠ '.') with
  | [] => (natOf intPart : Rat)
  | _ :: frac => (natOf intPart : Rat) + (natOf frac : Rat) / ((10 : Rat) ^ frac.length)

/-- `ls.readNumber()`. -/
def readNumber (s : ScanState) : Except ScanErr ScanState := do
  let s ← digitLoop (s.source.length - s.current + 1) s
  let s ←
    if s.peek == '.' && isDigitCh s.peekNext then do
      let (_, s) ← s.advance
      digitLoop (s.source.length - s.current + 1) s
    else pure s
  let lexeme := (s.source.drop s.start).take (s.current - s.start)
  pure (s.addToken .NUMBER (.numL (parseFloatQ lexeme)))

/-- The identifier-consuming loop of `readIdentifier`.  The same `'0'`
sentinel makes it call `advance` past the end of the source. -/
def identLoop : Nat → ScanState → Except ScanErr ScanState
  | 0, _ => .error .noFuel
  | fuel + 1, s =>
    if isLetterCh s.peek || isDigitCh s.peek || s.peek == '_' then
      match s.advance with
      | .ok (_, s') => identLoop fuel s'
      | .error e => .error e
    else .ok s

/-- `ls.readIdentifier()`: keyword lookup; note that the decoded literal is
the lexeme string `val` in both branches — never a boolean. -/
def readIdentifier (s : ScanState) : Except ScanErr ScanState := do
  let s ← identLoop (s.source.length - s.current + 1) s
  let val : String := ⟨(s.source.drop s.start).take (s.current - s.start)⟩
  match (keywordsMap.find? (fun p => p.1 == val)).map (·.2) with
  | some keyword => pure (s.addToken keyword (.strL val))
  | none => pure (s.addToken .IDENTIFIER (.strL val))

/-- The string-body loop of `readString`; its guard tests `isAtEnd`, so it
never reads out of bounds. -/
def stringLoop : Nat → ScanState → ScanState
  | 0, s => s
  | fuel + 1, s =>
    if s.peek != '"' && !s.isAtEnd then
      let s := if s.peek == '\n' then { s with line := s.line + 1 } else s
      stringLoop fuel { s with current := s.current + 1 }
    else s

/-- `ls.readString()`. -/
def readString (s : ScanState) : Except ScanErr ScanState := do
  let s := stringLoop (s.source.length - s.current + 1) s
  if s.isAtEnd then
    .error (.fatalMsg ("Unterminated string at line: " ++ toString s.line))
  else do
    let (_, s) ← s.advance
    let value : String := ⟨(s.source.drop (s.start + 1)).take (s.current - 1 - (s.start + 1))⟩
    pure (s.addToken .STRING (.strL value))

/-- The comment-skipping loop in `scan`'s `'/'` case
(`for ls.peek() != '\n' && !ls.isAtEnd() { ls.advance() }`); guarded by
`isAtEnd`, so in bounds. -/
def commentLoop : Nat → ScanState → ScanState
  | 0, s => s
  | fuel + 1, s =>
    if s.peek != '\n' && !s.isAtEnd then
      commentLoop fuel { s with current := s.current + 1 }
    else s

/-- `ls.scan()`: one dispatch step of the scanner. -/
def scanStep (s : ScanState) : Except ScanErr ScanState := do
  let (ch, s) ← s.advance
  match ch with
  | '(' => pure (s.addToken .LEFT_PAREN .nilL)
  | ')' => pure (s.addToken .RIGHT_PAREN .nilL)
  | '{' => pure (s.addToken .LEFT_BRACE .nilL)
  | '}' => pure (s.addToken .RIGHT_BRACE .nilL)
  | ',' => pure (s.addToken .COMMA .nilL)
  | '.' => pure (s.addToken .DOT .nilL)
  | '-' => pure (s.addToken .MINUS .nilL)
  | '+' => pure (s.addToken .PLUS .nilL)
  | ';' => pure (s.addToken .SEMICOLON .nilL)
  | '*' => pure (s.addToken .STAR .nilL)
  | '!' =>
    let (m, s) := s.matchCh '='
    pure (s.addToken (if m then .BANG_EQUAL else .BANG) .nilL)
  | '=' =>
    let (m, s) := s.matchCh '='
    pure (s.addToken (if m then .EQUAL_EQUAL else .EQUAL) .nilL)
  | '>' =>
    let (m, s) := s.matchCh '='
    pure (s.addToken (if m then .GREATER_EQUAL else .GREATER) .nilL)
  | '<' =>
    let (m, s) := s.matchCh '='
    pure (s.addToken (if m then .LESS_EQUAL else .LESS) .nilL)
  | '/' =>
    let (m, s) := s.matchCh '='
    if m then pure (commentLoop (s.source.length - s.current + 1) s)
    else pure (s.addToken .SLASH .nilL)
  | ' ' => pure s
  | '\r' => pure s
  | '\t' => pure s
  | '\n' => pure { s with line := s.line + 1 }
  | '"' => readString s
  | c =>
    if isDigitCh c then readNumber s
    else if isLetterCh c then readIdentifier s
    else .error (.fatalMsg ("unexpected character at line: " ++ toString s.line))

/-- The loop of `ls.ScanTokens()`: while not at end, set `start := current`
and `scan` one lexeme; finally append the EOF token. -/
def scanLoop : Nat → ScanState → Except ScanErr (List Token)
  | 0, _ => .error .noFuel
  | fuel + 1, s =>
    if s.isAtEnd then .ok (s.addToken .EOF .nilL).tokens
    else do
      let s' ← scanStep { s with start := s.current }
      scanLoop fuel s'

/-- `NewLexScanner(input)` followed by `ScanTokens()`. -/
def scanTokens (input : String) : Except ScanErr (List Token) :=
  scanLoop (input.toList.length + 1) ⟨input.toList, [], 0, 0, 1⟩

/-! ## The runtime value model (`internal/parser/expression.go`) -/

/-- `parser.Value`: the tagged runtime value.  The Go struct holds pointer
fields `StrVal`, `IntVal`, `FloatVal`, `BoolVal`, `NilVal`; each constructor
sets exactly one.  The zero `Value` and `NewNilValue()` are observationally
identical (`IsNil`, `String`, `IsTruthy`, ... ignore `NilVal`), so both are
modelled by `nilv`.  `float64` payloads are modelled by `Rat` (file
header). -/
inductive Value where
  | strV (s : String)
  | intV (i : Int)
  | floatV (q : Rat)
  | boolV (b : Bool)
  | nilv
deriving DecidableEq

/-- `Value.IsNumber`. -/
def Value.isNumber : Value → Bool
  | .intV _ => true
  | .floatV _ => true
  | _ => false

/-- `Value.IsString`. -/
def Value.isString : Value → Bool
  | .strV _ => true
  | _ => false

/-- `Value.IsBool`. -/
def Value.isBool : Value → Bool
  | .boolV _ => true
  | _ => false

/-- `Value.IsNil`: true when `StrVal`, `IntVal`, `FloatVal` and `BoolVal`
are all nil (the `NilVal` field is not inspected). -/
def Value.isNil : Value → Bool
  | .nilv => true
  | _ => false

/-- `Value.ToFloat64`.  The source panics on the string and nil variants;
every call site below guards with `IsNumber` first (as the source does via
`checkNumberOperand(s)`), so those cases are defaulted to `0` here. -/
def Value.toFloat64 : Value → Rat
  | .floatV q => q
  | .intV i => (i : Rat)
  | .boolV b => if b then 1 else 0
  | _ => 0

/-- `*v.StrVal`: the string payload; all uses are guarded by `IsString`. -/
def Value.strContent : Value → String
  | .strV s => s
  | _ => ""

/-- `Value.IsTruthy`. -/
def Value.isTruthy : Value → Bool
  | .boolV b => b
  | .intV i => i ≠ 0
  | .floatV q => q ≠ 0
  | .strV s => s ≠ ""
  | .nilv => false

/-- Go `fmt.Sprintf("%q", s)` for strings that contain no character Go
would escape (true of every string in the claims): wrap in double
quotes. -/
def goQuote (s : String) : String := "\"" ++ s ++ "\""

/-- Go `strconv.Itoa`. -/
def goItoa (i : Int) : String :=
  if i < 0 then "-" ++ ⟨Nat.toDigits 10 i.natAbs⟩ else ⟨Nat.toDigits 10 i.natAbs⟩

/-- The least `k ≤ 1100` with `q·10^k` integral.  Such a `k` exists for
every binary64 value (its denominator divides `2^1074`); other rationals
(which no embedded run produces) yield `none`. -/
def decScale (q : Rat) : Option Nat :=
  (List.range 1101).find? (fun k => (q * (10 : Rat) ^ k).den = 1)

/-- Digit characters (most significant first) with trailing zeros removed,
together with the count removed. -/
def stripTrailingZeros (ds : List Char) : List Char × Nat :=
  let r := ds.reverse.dropWhile (fun c => c = '0')
  (r.reverse, ds.length - r.length)

/-- Two-or-more-digit decimal exponent, as Go's `fmtE` writes it. -/
def expDigits (e : Nat) : String :=
  if e < 10 then ⟨['0', Char.ofNat (48 + e)]⟩ else ⟨Nat.toDigits 10 e⟩

/-- Go `fmt.Sprintf("%g", f)` (i.e. `strconv.FormatFloat(f, 'g', -1, 64)`)
for nonnegative float64 values that this model represents exactly: the
shortest digit string, in fixed notation when the decimal exponent lies in
`[-4, 21)` and in `e`-notation otherwise.  NaN, signed zero and the
shortest-round-trip behaviour of inexact binary64 values are outside this
exact-rational model (see claim C5). -/
def goFloatGPos (q : Rat) : String :=
  if q = 0 then "0"
  else
    match decScale q with
    | none => "?"
    | some k =>
      let allDigits := Nat.toDigits 10 (q * (10 : Rat) ^ k).num.natAbs
      let (digits, _) := (stripTrailingZeros allDigits)
      let dp : Int := (allDigits.length : Int) - (k : Int)
      let exponent : Int := dp - 1
      if exponent < -4 || 21 ≤ exponent then
        -- fmtE: d.dddd e±XX
        let mantissa : String :=
          match digits with
          | [] => "0"
          | d :: [] => ⟨[d]⟩
          | d :: rest => ⟨[d, '.'] ++ rest⟩
        mantissa ++ "e" ++ (if exponent < 0 then "-" else "+") ++ expDigits exponent.natAbs
      else if dp ≤ 0 then
        "0." ++ ⟨List.replicate dp.natAbs '0'⟩ ++ ⟨digits⟩
      else if digits.length ≤ dp.natAbs then
        ⟨digits ++ List.replicate (dp.natAbs - digits.length) '0'⟩
      else
        ⟨digits.take dp.natAbs⟩ ++ "." ++ ⟨digits.drop dp.natAbs⟩

/-- Go `fmt.Sprintf("%g", f)` with the sign. -/
def goFloatG (q : Rat) : String :=
  if q < 0 then "-" ++ goFloatGPos (-q) else goFloatGPos q

/-- `Value.String()`: strings are quoted, ints via `Itoa`, floats via
`%g`, booleans via `FormatBool`, and the default case renders `nil`. -/
def Value.render : Value → String
  | .strV s => goQuote s
  | .intV i => goItoa i
  | .floatV q => goFloatG q
  | .boolV b => if b then "true" else "false"
  | .nilv => "nil"

/-! ## The AST (`internal/parser/expression.go`, statement file) -/

/-- `parser.Expr` (the visitor-based AST of the current snapshot).  `nilE`
models a nil Go `Expr` interface value — `primary` returns one when no
alternative matches, and `VarStmt.Expr` is nil when a declaration has no
initializer; calling `Accept` on it panics.  A `Literal` holds a `*Value`
that can itself be nil (the parser stores nil for a NIL token), hence
`Option Value`. -/
inductive Expr where
  | nilE
  | binary (left : Expr) (operator : Token) (right : Expr)
  | unary (operator : Token) (right : Expr)
  | literal (value : Option Value)
  | varE (name : String)
  | assignE (name : String) (e : Expr)
deriving DecidableEq

/-- `parser.Stmt`.  `VarStmt.Name` is a `*scanner.Token`; `VarStmt.Expr`
is the nil interface (`Expr.nilE`) when the declaration has no
initializer. -/
inductive Stmt where
  | exprStmt (e : Expr)
  | printStmt (e : Expr)
  | varStmt (name : Token) (e : Expr)
deriving DecidableEq

/-! ## The interpreter (`internal/interpreter/interpreter.go`, `env.go`) -/

/-- Runtime failure modes of evaluation: `nilDeref` models a Go nil-pointer
or nil-interface dereference panic; `panicMsg` an explicit `panic(...)`
call. -/
inductive EvalErr where
  | nilDeref
  | panicMsg (msg : String)
deriving DecidableEq

/-- Dereference a `*parser.Value` (calling any value-receiver method on a
nil pointer panics). -/
def derefV : Option Value → Except EvalErr Value
  | some v => .ok v
  | none => .error .nilDeref

/-- `interpreter.Env`: a Go map from variable name to `*parser.Value`.
Stored pointers may be nil, and looking up a missing key yields the nil
pointer (the map's zero value), so `get` returns `none` in both cases. -/
abbrev Env := List (String × Option Value)

/-- `Env.Get(name)`: `e.values[name]`. -/
def Env.get (e : Env) (name : String) : Option Value :=
  match e.find? (fun p => p.1 == name) with
  | some p => p.2
  | none => none

/-- `Env.Define(name, value)` (map overwrite; `get` sees the newest
binding). -/
def Env.define (e : Env) (name : String) (v : Option Value) : Env :=
  (name, v) :: e

/-- `Interpreter.add`. -/
def Interp.add (left right : Value) : Except EvalErr Value :=
  if left.isNumber && right.isNumber then
    .ok (.floatV (left.toFloat64 + right.toFloat64))
  else if left.isString && right.isString then
    .ok (.strV (left.strContent ++ right.strContent))
  else .error (.panicMsg "Operands must be two numbers or two strings")

/-- `Interpreter.checkNumberOperands`. -/
def Interp.checkNumberOperands (left right : Value) : Except EvalErr Unit :=
  if !left.isNumber || !right.isNumber then
    .error (.panicMsg "Operands must be numbers")
  else .ok ()

/-- `Interpreter.subtract`. -/
def Interp.subtract (left right : Value) : Except EvalErr Value := do
  Interp.checkNumberOperands left right
  .ok (.floatV (left.toFloat64 - right.toFloat64))

/-- `Interpreter.multiply`. -/
def Interp.multiply (left right : Value) : Except EvalErr Value := do
  Interp.checkNumberOperands left right
  .ok (.floatV (left.toFloat64 * right.toFloat64))

/-- `Interpreter.divide`.  (Go divides binary64 values, where division by
zero yields ±Inf/NaN; `Rat` division by zero yields `0`.  No claim
evaluates a division.) -/
def Interp.divide (left right : Value) : Except EvalErr Value := do
  Interp.checkNumberOperands left right
  .ok (.floatV (left.toFloat64 / right.toFloat64))

/-- `Interpreter.greater`. -/
def Interp.greater (left right : Value) : Except EvalErr Value := do
  Interp.checkNumberOperands left right
  .ok (.boolV (right.toFloat64 < left.toFloat64))

/-- `Interpreter.greaterEqual`. -/
def Interp.greaterEqual (left right : Value) : Except EvalErr Value := do
  Interp.checkNumberOperands left right
  .ok (.boolV (right.toFloat64 ≤ left.toFloat64))

/-- `Interpreter.less`. -/
def Interp.less (left right : Value) : Except EvalErr Value := do
  Interp.checkNumberOperands left right
  .ok (.boolV (left.toFloat64 < right.toFloat64))

/-- `Interpreter.lessEqual`. -/
def Interp.lessEqual (left right : Value) : Except EvalErr Value := do
  Interp.checkNumberOperands left right
  .ok (.boolV (left.toFloat64 ≤ right.toFloat64))

/-- `Interpreter.equal`: after the two nil tests it compares the
`String()` renderings of the operands. -/
def Interp.equal (left right : Value) : Value :=
  if left.isNil && right.isNil then .boolV true
  else if left.isNil then .boolV false
  else .boolV (left.render == right.render)

/-- `Interpreter.notEqual`. -/
def Interp.notEqual (left right : Value) : Value :=
  .boolV (!(Interp.equal left right).isTruthy)

/-- `Interpreter.negate`. -/
def Interp.negate (value : Value) : Except EvalErr Value :=
  if !value.isNumber then .error (.panicMsg "Operand must be a number")
  else .ok (.floatV (-value.toFloat64))

/-- `Interpreter.logicalNot`. -/
def Interp.logicalNot (value : Value) : Except EvalErr Value :=
  .ok (.boolV (!value.isTruthy))

/-- `Interpreter.evaluateBinaryOp`.  In the source the operands are
`*parser.Value` pointers and each operation dereferences them through its
method calls; here both are dereferenced up front.  This only relabels
which panic occurs when a nil operand meets a failing type check (the
source can reach its `panic(...)` message without touching the right
operand); every such case still panics, and no claim evaluates a binary
operator on a nil operand together with a type error. -/
def evalBinaryOp (left right : Option Value) (operator : Token) :
    Except EvalErr Value := do
  let l ← derefV left
  let r ← derefV right
  match operator.type with
  | .PLUS => Interp.add l r
  | .MINUS => Interp.subtract l r
  | .STAR => Interp.multiply l r
  | .SLASH => Interp.divide l r
  | .GREATER => Interp.greater l r
  | .GREATER_EQUAL => Interp.greaterEqual l r
  | .LESS => Interp.less l r
  | .LESS_EQUAL => Interp.lessEqual l r
  | .EQUAL_EQUAL => .ok (Interp.equal l r)
  | .BANG_EQUAL => .ok (Interp.notEqual l r)
  | _ => .error (.panicMsg ("Unknown binary operator: " ++ operator.lexeme))

/-- `Interpreter.evaluateUnaryOp`. -/
def evalUnaryOp (right : Option Value) (operator : Token) :
    Except EvalErr Value := do
  let r ← derefV right
  match operator.type with
  | .MINUS => Interp.negate r
  | .BANG => Interp.logicalNot r
  | _ => .error (.panicMsg ("Unknown unary operator: " ++ operator.lexeme))

/-- `Expr.Accept(i)` for the `Interpreter` expression visitor.  The result
is a `*parser.Value`: `VisitLiteral` returns the literal's stored pointer,
which is nil for a `Literal` built from a NIL token, hence `Option Value`.
In `VisitVariable`, `environment.Get` returns a nil pointer for an unbound
name and `value.IsNil()` — a value-receiver method — dereferences it, which
panics (`.error .nilDeref`); the `assignE` case has no `VisitAssign`
implementation in the interpreter and is modelled as an unimplemented
panic (the parser of this snapshot never produces an `Assign` node). -/
def evalE (env : Env) : Expr → Except EvalErr (Option Value)
  | .nilE => .error .nilDeref
  | .binary l op r => do
    let lv ← evalE env l
    let rv ← evalE env r
    (evalBinaryOp lv rv op).map some
  | .unary op r => do
    let rv ← evalE env r
    (evalUnaryOp rv op).map some
  | .literal v => .ok v
  | .varE name =>
    match env.get name with
    | none => .error .nilDeref
    | some v => .ok (some (if v.isNil then Value.nilv else v))
  | .assignE _ _ => .error (.panicMsg "no VisitAssign implementation")

/-! ## The recursive-descent parser (`internal/parser/parser.go`)

The parser state is the cursor `current` into the fixed token slice; each
function returns its result together with the new cursor.  Failure modes:
`oob` is a Go slice "index out of range" panic, `fatal msg` a
`log.Fatal(err)` call (host-process exit), `assertPanic` a failed type
assertion in `primary`, and `noFuel` marks fuel exhaustion of the
embedding (the grammar functions recurse through the token list, which Lean
cannot see terminating; claims quantify over all fuel or use a concretely
sufficient one). -/

/-- Parser failure modes (see the section header). -/
inductive PErr where
  | oob
  | fatal (msg : String)
  | assertPanic
  | noFuel
deriving DecidableEq

/-- `p.peek()`: `p.tokens[p.current]`. -/
def peekT (ts : List Token) (cur : Nat) : Except PErr Token :=
  match ts.get? cur with
  | some t => .ok t
  | none => .error .oob

/-- `p.previous()`: `p.tokens[p.current-1]`, a panic when `current = 0`
(Go would index at `-1`). -/
def previousT (ts : List Token) (cur : Nat) : Except PErr Token :=
  if cur = 0 then .error .oob else peekT ts (cur - 1)

/-- `p.isAtEnd()`: `p.peek().Type == ls.EOF`. -/
def isAtEndT (ts : List Token) (cur : Nat) : Except PErr Bool := do
  let t ← peekT ts cur
  pure (t.type == .EOF)

/-- `p.advance()`: increment the cursor unless at end, then return
`p.previous()`. -/
def advanceT (ts : List Token) (cur : Nat) : Except PErr (Token × Nat) := do
  let e ← isAtEndT ts cur
  let cur' := if e then cur else cur + 1
  let t ← previousT ts cur'
  pure (t, cur')

/-- `p.check(tokenType)`. -/
def checkT (ts : List Token) (cur : Nat) (tokenType : TokenType) :
    Except PErr Bool := do
  let e ← isAtEndT ts cur
  if e then pure false
  else do
    let t ← peekT ts cur
    pure (t.type == tokenType)

/-- `p.match(tokens...)`: advance past the first token type that checks. -/
def matchT (ts : List Token) (cur : Nat) :
    List TokenType → Except PErr (Bool × Nat)
  | [] => .ok (false, cur)
  | tokenType :: rest => do
    let c ← checkT ts cur tokenType
    if c then do
      let (_, cur') ← advanceT ts cur
      .ok (true, cur')
    else matchT ts cur rest

/-- The Go zero value `ls.Token{}` (`TokenType(0)` is `LEFT_PAREN`). -/
def zeroToken : Token := ⟨.LEFT_PAREN, "", .nilL, 0⟩

/-- `p.consume(tokenType, message)`: returns the token and a possible
error **as data** (`errors.New(message)`); the callers decide what to do
with the error. -/
def consumeT (ts : List Token) (cur : Nat) (tokenType : TokenType)
    (message : String) : Except PErr ((Token × Option String) × Nat) := do
  let c ← checkT ts cur tokenType
  if c then do
    let (t, cur') ← advanceT ts cur
    .ok ((t, none), cur')
  else .ok ((zeroToken, some message), cur)

mutual

/-- `p.expression()` (also `p.ParseExpression()`). -/
def expressionP : Nat → List Token → Nat → Except PErr (Expr × Nat)
  | 0, _, _ => .error .noFuel
  | fuel + 1, ts, cur => equalityP fuel ts cur
termination_by structural fuel _ _ => fuel

/-- `p.equality()`. -/
def equalityP : Nat → List Token → Nat → Except PErr (Expr × Nat)
  | 0, _, _ => .error .noFuel
  | fuel + 1, ts, cur => do
    let (e, cur1) ← comparisonP fuel ts cur
    equalityLoopP fuel ts e cur1
termination_by structural fuel _ _ => fuel

/-- The `for p.match(BANG_EQUAL, EQUAL_EQUAL)` loop of `equality`. -/
def equalityLoopP : Nat → List Token → Expr → Nat → Except PErr (Expr × Nat)
  | 0, _, _, _ => .error .noFuel
  | fuel + 1, ts, e, cur => do
    let (m, cur1) ← matchT ts cur [.BANG_EQUAL, .EQUAL_EQUAL]
    if m then do
      let operator ← previousT ts cur1
      let (right, cur2) ← comparisonP fuel ts cur1
      equalityLoopP fuel ts (.binary e operator right) cur2
    else .ok (e, cur1)
termination_by structural fuel _ _ _ => fuel

/-- `p.comparison()`. -/
def comparisonP : Nat → List Token → Nat → Except PErr (Expr × Nat)
  | 0, _, _ => .error .noFuel
  | fuel + 1, ts, cur => do
    let (e, cur1) ← termP fuel ts cur
    comparisonLoopP fuel ts e cur1
termination_by structural fuel _ _ => fuel

/-- The `for p.match(GREATER, GREATER_EQUAL, LESS, LESS_EQUAL)` loop. -/
def comparisonLoopP : Nat → List Token → Expr → Nat → Except PErr (Expr × Nat)
  | 0, _, _, _ => .error .noFuel
  | fuel + 1, ts, e, cur => do
    let (m, cur1) ← matchT ts cur [.GREATER, .GREATER_EQUAL, .LESS, .LESS_EQUAL]
    if m then do
      let operator ← previousT ts cur1
      let (right, cur2) ← termP fuel ts cur1
      comparisonLoopP fuel ts (.binary e operator right) cur2
    else .ok (e, cur1)
termination_by structural fuel _ _ _ => fuel

/-- `p.term()`. -/
def termP : Nat → List Token → Nat → Except PErr (Expr × Nat)
  | 0, _, _ => .error .noFuel
  | fuel + 1, ts, cur => do
    let (e, cur1) ← factorP fuel ts cur
    termLoopP fuel ts e cur1
termination_by structural fuel _ _ => fuel

/-- The `for p.match(MINUS, PLUS)` loop of `term`. -/
def termLoopP : Nat → List Token → Expr → Nat → Except PErr (Expr × Nat)
  | 0, _, _, _ => .error .noFuel
  | fuel + 1, ts, e, cur => do
    let (m, cur1) ← matchT ts cur [.MINUS, .PLUS]
    if m then do
      let operator ← previousT ts cur1
      let (right, cur2) ← factorP fuel ts cur1
      termLoopP fuel ts (.binary e operator right) cur2
    else .ok (e, cur1)
termination_by structural fuel _ _ _ => fuel

/-- `p.factor()`. -/
def factorP : Nat → List Token → Nat → Except PErr (Expr × Nat)
  | 0, _, _ => .error .noFuel
  | fuel + 1, ts, cur => do
    let (e, cur1) ← unaryP fuel ts cur
    factorLoopP fuel ts e cur1
termination_by structural fuel _ _ => fuel

/-- The `for p.match(SLASH, STAR)` loop of `factor`. -/
def factorLoopP : Nat → List Token → Expr → Nat → Except PErr (Expr × Nat)
  | 0, _, _, _ => .error .noFuel
  | fuel + 1, ts, e, cur => do
    let (m, cur1) ← matchT ts cur [.SLASH, .STAR]
    if m then do
      let operator ← previousT ts cur1
      let (right, cur2) ← unaryP fuel ts cur1
      factorLoopP fuel ts (.binary e operator right) cur2
    else .ok (e, cur1)
termination_by structural fuel _ _ _ => fuel

/-- `p.unary()`. -/
def unaryP : Nat → List Token → Nat → Except PErr (Expr × Nat)
  | 0, _, _ => .error .noFuel
  | fuel + 1, ts, cur => do
    let (m, cur1) ← matchT ts cur [.BANG, .MINUS]
    if m then do
      let operator ← previousT ts cur1
      let (right, cur2) ← unaryP fuel ts cur1
      .ok (.unary operator right, cur2)
    else primaryP fuel ts cur1
termination_by structural fuel _ _ => fuel

/-- `p.primary()`.  A matched literal token is decoded through a type
assertion on its `Literal any` payload — `literal.(float64)`,
`literal.(string)` or `literal.(bool)` — which panics if the payload has a
different dynamic type; the `default` case (a NIL token) leaves the
`*Value` nil.  When nothing matches, the function returns the nil `Expr`
interface (`.nilE`).  A missing `')'` makes `consume` return an error as
data; `primary` then calls `log.Fatal(err)`. -/
def primaryP : Nat → List Token → Nat → Except PErr (Expr × Nat)
  | 0, _, _ => .error .noFuel
  | fuel + 1, ts, cur => do
    let (m, cur1) ← matchT ts cur [.NUMBER, .STRING, .TRUE, .FALSE, .NIL]
    if m then do
      let token ← previousT ts cur1
      match token.type with
      | .NUMBER =>
        match token.literal.asNum with
        | some q => .ok (.literal (some (.floatV q)), cur1)
        | none => .error .assertPanic
      | .STRING =>
        match token.literal.asStr with
        | some s => .ok (.literal (some (.strV s)), cur1)
        | none => .error .assertPanic
      | .TRUE | .FALSE =>
        match token.literal.asBool with
        | some b => .ok (.literal (some (.boolV b)), cur1)
        | none => .error .assertPanic
      | _ => .ok (.literal none, cur1)
    else do
      let (mi, cur2) ← matchT ts cur1 [.IDENTIFIER]
      if mi then do
        let t ← previousT ts cur2
        .ok (.varE t.lexeme, cur2)
      else do
        let (mp, cur3) ← matchT ts cur2 [.LEFT_PAREN]
        if mp then do
          let (e, cur4) ← expressionP fuel ts cur3
          let ((_, err), cur5) ← consumeT ts cur4 .RIGHT_PAREN "expect ')' after expression"
          match err with
          | some msg => .error (.fatal msg)
          | none => .ok (e, cur5)
        else .ok (.nilE, cur3)
termination_by structural fuel _ _ => fuel

end

mutual

/-- The `for !p.isAtEnd()` loop of `p.Parse()`. -/
def parseP : Nat → List Token → Nat → Except PErr (List Stmt × Nat)
  | 0, _, _ => .error .noFuel
  | fuel + 1, ts, cur => do
    let e ← isAtEndT ts cur
    if e then .ok ([], cur)
    else do
      let (st, cur1) ← declarationP fuel ts cur
      let (rest, cur2) ← parseP fuel ts cur1
      .ok (st :: rest, cur2)
termination_by structural fuel _ _ => fuel

/-- `p.declaration()`. -/
def declarationP : Nat → List Token → Nat → Except PErr (Stmt × Nat)
  | 0, _, _ => .error .noFuel
  | fuel + 1, ts, cur => do
    let (m, cur1) ← matchT ts cur [.VAR]
    if m then varDeclarationP fuel ts cur1
    else statementP fuel ts cur1

/-- `p.statement()`. -/
def statementP : Nat → List Token → Nat → Except PErr (Stmt × Nat)
  | 0, _, _ => .error .noFuel
  | fuel + 1, ts, cur => do
    let (m, cur1) ← matchT ts cur [.PRINT]
    if m then printStatementP fuel ts cur1
    else expressionStatementP fuel ts cur1

/-- `p.varDeclaration()`; both `consume` errors are passed to
`log.Fatal`. -/
def varDeclarationP : Nat → List Token → Nat → Except PErr (Stmt × Nat)
  | 0, _, _ => .error .noFuel
  | fuel + 1, ts, cur => do
    let ((name, err), cur1) ← consumeT ts cur .IDENTIFIER "expect variable name"
    match err with
    | some msg => .error (.fatal msg)
    | none => do
      let (m, cur2) ← matchT ts cur1 [.EQUAL]
      let (initializer, cur3) ←
        if m then expressionP fuel ts cur2
        else pure (Expr.nilE, cur2)
      let ((_, err2), cur4) ← consumeT ts cur3 .SEMICOLON "expect ';' after expression"
      match err2 with
      | some msg => .error (.fatal msg)
      | none => .ok (.varStmt name initializer, cur4)

/-- `p.printStatement()`. -/
def printStatementP : Nat → List Token → Nat → Except PErr (Stmt × Nat)
  | 0, _, _ => .error .noFuel
  | fuel + 1, ts, cur => do
    let (e, cur1) ← expressionP fuel ts cur
    let ((_, err), cur2) ← consumeT ts cur1 .SEMICOLON "expect ';' after expression"
    match err with
    | some msg => .error (.fatal msg)
    | none => .ok (.printStmt e, cur2)

/-- `p.expressionStatement()`. -/
def expressionStatementP : Nat → List Token → Nat → Except PErr (Stmt × Nat)
  | 0, _, _ => .error .noFuel
  | fuel + 1, ts, cur => do
    let (e, cur1) ← expressionP fuel ts cur
    let ((_, err), cur2) ← consumeT ts cur1 .SEMICOLON "expect ';' after expression"
    match err with
    | some msg => .error (.fatal msg)
    | none => .ok (.exprStmt e, cur2)

end

/-! ## Concrete token sequences used by the claims -/

/-- A NUMBER token as the scanner produces it (decoded `float64`
payload). -/
def numTok (q : Rat) (lx : String) : Token := ⟨.NUMBER, lx, .numL q, 1⟩

/-- An operator/punctuation token (no literal payload). -/
def opTok (tt : TokenType) (lx : String) : Token := ⟨tt, lx, .nilL, 1⟩

/-- The EOF sentinel token. -/
def eofTok : Token := ⟨.EOF, "", .nilL, 1⟩

/-- The token sequence for `1 + 2 * 3`. -/
def tokens123 : List Token :=
  [numTok 1 "1", opTok .PLUS "+", numTok 2 "2", opTok .STAR "*", numTok 3 "3", eofTok]

/-- The token sequence for `8 - 3 - 2`. -/
def tokens832 : List Token :=
  [numTok 8 "8", opTok .MINUS "-", numTok 3 "3", opTok .MINUS "-", numTok 2 "2", eofTok]

/-- The token sequence for the malformed input `(1 + 2`. -/
def tokensOpenParen : List Token :=
  [opTok .LEFT_PAREN "(", numTok 1 "1", opTok .PLUS "+", numTok 2 "2", eofTok]

/-! ## Claim theorems -/

/-- C1: the claim says an unbound `Variable{name}` evaluates to `Nil` and
the lookup never fails.  In the code, `Env.Get` returns a nil `*Value` for
an unbound name and `VisitVariable` immediately calls `value.IsNil()` — a
value-receiver method that dereferences the nil pointer — so the lookup
panics instead of returning `Nil`.  A bound name does evaluate to its
bound value. -/
theorem c1_unbound_variable_lookup_panics :
    evalE [] (.varE "x") = .error .nilDeref
      ∧ evalE [("y", some (.floatV 1))] (.varE "y") = .ok (some (.floatV 1)) :=
  ⟨rfl, rfl⟩

/-- C2: the claim says scanning `true` yields a TRUE token whose decoded
literal is the boolean `true`, and parsing it yields a Boolean literal
expression.  In the code: (i) scanning the bare source `true` panics with
an index out of range (`peek` returns the digit `'0'` at end of input, so
`readIdentifier` advances past the end); (ii) when the keyword is followed
by another character (`true;`), the TRUE token's literal is the *string*
`"true"`, not a boolean; (iii) `primary` then evaluates the type assertion
`literal.(bool)` on that string payload, which panics. -/
theorem c2_true_literal_is_string_not_bool :
    scanTokens "true" = .error .oob
  ∧ scanTokens "false" = .error .oob
  ∧ scanTokens "true;" =
      .ok [⟨.TRUE, "true", .strL "true", 1⟩, ⟨.SEMICOLON, ";", .nilL, 1⟩,
           ⟨.EOF, ";", .nilL, 1⟩]
  ∧ scanTokens "false;" =
      .ok [⟨.FALSE, "false", .strL "false", 1⟩, ⟨.SEMICOLON, ";", .nilL, 1⟩,
           ⟨.EOF, ";", .nilL, 1⟩]
  ∧ primaryP 9 [⟨.TRUE, "true", .strL "true", 1⟩, eofTok] 0 = .error .assertPanic
  ∧ primaryP 9 [⟨.FALSE, "false", .strL "false", 1⟩, eofTok] 0 = .error .assertPanic := by
  refine ⟨by decide, by decide, by decide, by decide, by decide, by decide⟩

/-- C3: the claim says scanning a source consisting of a valid numeric
literal yields a NUMBER token followed by EOF.  In the code, after the
digits are consumed the cursor sits at the end of the source, where `peek`
returns the digit `'0'`; `readNumber`'s loop therefore calls `advance`,
which indexes `source[len(source)]` — an index-out-of-range panic.  This
happens for every source that is exactly a numeric literal. -/
theorem c3_scanning_bare_number_panics :
    scanTokens "7" = .error .oob ∧ scanTokens "12.5" = .error .oob := by
  refine ⟨by decide, by decide⟩

/-- C4: the claim says `ScanTokens` never indexes the source out of
bounds, in particular on sources ending in a digit, letter, underscore or
keyword character.  In the code, the `'0'` end-of-input sentinel of `peek`
is itself a digit, so `readIdentifier`/`readNumber` advance past the end
of such sources and index out of range. -/
theorem c4_scan_reads_past_end :
    scanTokens "x" = .error .oob
  ∧ scanTokens "ab_1" = .error .oob
  ∧ scanTokens "1" = .error .oob := by
  refine ⟨by decide, by decide, by decide⟩

/-- C6 counterexample: the claim says parsing the token sequence of
`(1 + 2` surfaces a ParseError as data and "does not terminate the host
process".  In the code `primary` passes the error to `log.Fatal`, which
exits the process — modelled by the `.fatal` outcome. -/
theorem c6_counterexample_parse_exits_process :
    parseP 99 tokensOpenParen 0 = .error (.fatal "expect ')' after expression") := by
  decide

/-- C6 amended: parsing the token sequence of `(1 + 2` makes `consume`
produce the ParseError "expect ')' after expression" and return it as data
to its caller `primary` (first conjunct: `consume` at the cursor position
`primary` reaches), but `primary` then passes the error to `log.Fatal`, so
the parse terminates the host process with that diagnostic rather than
returning it to the caller of `Parse` (second conjunct). -/
theorem c6_amended_consume_error_then_fatal :
    consumeT tokensOpenParen 4 .RIGHT_PAREN "expect ')' after expression"
      = .ok ((zeroToken, some "expect ')' after expression"), 4)
  ∧ parseP 99 tokensOpenParen 0 = .error (.fatal "expect ')' after expression") := by
  refine ⟨by decide, by decide⟩

/-- Position of the first newline at or after index `i` in the source (or
the end of the source when there is none): exactly where the
comment-skipping loop of `scan`'s `'/'` case stops. -/
def nlIdx (src : List Char) (i : Nat) : Nat :=
  i + ((src.drop i).takeWhile (fun c => c != '\n')).length

/-- The comment-skipping loop consumes every character up to (but not
including) the next newline — or through the end of the source — and
touches nothing else in the state. -/
theorem commentLoop_spec (fuel : Nat) :
    ∀ s : ScanState, s.source.length - s.current < fuel →
      commentLoop fuel s = { s with current := nlIdx s.source s.current } := by
  induction fuel with
  | zero => intro s h; omega
  | succ n ih =>
    intro s h
    cases hg : s.source.get? s.current with
    | none =>
      have hend : s.source.length ≤ s.current := by
        by_contra hx
        push_neg at hx
        rw [List.get?_eq_getElem?, List.getElem?_eq_getElem hx] at hg
        exact Option.noConfusion hg
      have hA : s.isAtEnd = true := by simp [ScanState.isAtEnd, hend]
      have hdrop : s.source.drop s.current = [] := List.drop_eq_nil_of_le hend
      simp [commentLoop, hA, nlIdx, hdrop]
    | some c =>
      have hlt : s.current < s.source.length := (List.get?_eq_some.mp hg).1
      have hA : s.isAtEnd = false := by
        simp only [ScanState.isAtEnd, decide_eq_false_iff_not, Nat.not_le]
        omega
      have hpeek : s.peek = c := by
        unfold ScanState.peek
        rw [hg]
      have hgl : s.source[s.current] = c := by
        rw [List.get?_eq_getElem?, List.getElem?_eq_getElem hlt, Option.some_inj] at hg
        exact hg
      have hdrop : s.source.drop s.current = c :: s.source.drop (s.current + 1) := by
        rw [List.drop_eq_getElem_cons hlt, hgl]
      by_cases hnl : c = '\n'
      · have hcond : (s.peek != '\n' && !s.isAtEnd) = false := by
          simp [hpeek, hnl]
        have hn : nlIdx s.source s.current = s.current := by
          simp [nlIdx, hdrop, List.takeWhile_cons, hnl]
        simp [commentLoop, hcond, hn]
      · have hcond : (s.peek != '\n' && !s.isAtEnd) = true := by
          simp [hpeek, hA, hnl]
        have hstep := ih { s with current := s.current + 1 } (by dsimp only; omega)
        have hn : nlIdx s.source s.current = nlIdx s.source (s.current + 1) := by
          simp only [nlIdx, hdrop, List.takeWhile_cons]
          rw [if_pos (by simp [hnl])]
          simp only [List.length_cons]
          omega
        simp only [commentLoop, hcond, if_true]
        rw [hstep, hn]

/-- C7: in `scan`, a `'/'` immediately followed by `'='` begins a line
comment — every character up to (but not including) the next newline is
consumed and no token is emitted — while a `'/'` followed by anything else
(including a second `'/'`), or a `'/'` that ends the source, emits a
single SLASH token and consumes nothing further. -/
theorem c7_slash_comment (s : ScanState)
    (hcur : s.source.get? s.current = some '/') :
    (s.source.get? (s.current + 1) = some '=' →
      scanStep s = .ok { s with current := nlIdx s.source (s.current + 2) })
  ∧ (∀ c, s.source.get? (s.current + 1) = some c → c ≠ '=' →
      ∃ tok, scanStep s =
          .ok { s with current := s.current + 1, tokens := s.tokens ++ [tok] }
        ∧ tok.type = .SLASH ∧ tok.literal = .nilL)
  ∧ (s.source.get? (s.current + 1) = none →
      ∃ tok, scanStep s =
          .ok { s with current := s.current + 1, tokens := s.tokens ++ [tok] }
        ∧ tok.type = .SLASH ∧ tok.literal = .nilL) := by
  refine ⟨?_, ?_, ?_⟩
  · intro hnext
    have hm : ScanState.matchCh { s with current := s.current + 1 } '=' =
        (true, { s with current := s.current + 2 }) := by
      simp only [ScanState.matchCh]
      rw [hnext]
      simp
    simp only [scanStep, ScanState.advance, hcur, bind, Except.bind]
    rw [hm]
    have hcs := commentLoop_spec (s.source.length - (s.current + 2) + 1)
      { s with current := s.current + 2 } (by dsimp only; omega)
    rw [hcs]
    rfl
  · intro c hnext hne
    have hm : ScanState.matchCh { s with current := s.current + 1 } '=' =
        (false, { s with current := s.current + 1 }) := by
      simp only [ScanState.matchCh]
      rw [hnext]
      simp [hne]
    refine ⟨⟨.SLASH, ⟨(s.source.drop s.start).take (s.current + 1 - s.start)⟩, .nilL, s.line⟩,
      ?_, rfl, rfl⟩
    simp only [scanStep, ScanState.advance, hcur, bind, Except.bind]
    rw [hm]
    rfl
  · intro hnone
    have hm : ScanState.matchCh { s with current := s.current + 1 } '=' =
        (false, { s with current := s.current + 1 }) := by
      simp only [ScanState.matchCh]
      rw [hnone]
    refine ⟨⟨.SLASH, ⟨(s.source.drop s.start).take (s.current + 1 - s.start)⟩, .nilL, s.line⟩,
      ?_, rfl, rfl⟩
    simp only [scanStep, ScanState.advance, hcur, bind, Except.bind]
    rw [hm]
    rfl

/-- C7 witness: on the source `/=ab` (cursor at 0) the step consumes the
whole comment and emits nothing; on `//` it emits one SLASH token; on a
trailing `/` it also emits one SLASH token. -/
theorem c7_slash_comment_witness :
    scanStep ⟨['/', '=', 'a', 'b'], [], 0, 0, 1⟩ =
      .ok { source := ['/', '=', 'a', 'b'], tokens := [], start := 0,
            current := nlIdx ['/', '=', 'a', 'b'] 2, line := 1 }
  ∧ (∃ tok, scanStep ⟨['/', '/'], [], 0, 0, 1⟩ =
        .ok { source := ['/', '/'], tokens := [] ++ [tok], start := 0,
              current := 1, line := 1 }
      ∧ tok.type = .SLASH ∧ tok.literal = .nilL) :=
  ⟨(c7_slash_comment ⟨['/', '=', 'a', 'b'], [], 0, 0, 1⟩ rfl).1 rfl,
   (c7_slash_comment ⟨['/', '/'], [], 0, 0, 1⟩ rfl).2.1 '/' rfl (by decide)⟩

/-- C8: parsing `1 + 2 * 3` builds the tree `1 + (2 * 3)` (multiplication
binds tighter) and evaluating it yields the Number 7, not 9; parsing
`8 - 3 - 2` builds the left-associative tree `(8 - 3) - 2` and evaluating
it yields the Number 3, not 7. -/
theorem c8_precedence_and_associativity :
    expressionP 99 tokens123 0 =
      .ok (.binary (.literal (some (.floatV 1))) (opTok .PLUS "+")
            (.binary (.literal (some (.floatV 2))) (opTok .STAR "*")
              (.literal (some (.floatV 3)))), 5)
  ∧ evalE [] (.binary (.literal (some (.floatV 1))) (opTok .PLUS "+")
        (.binary (.literal (some (.floatV 2))) (opTok .STAR "*")
          (.literal (some (.floatV 3))))) = .ok (some (.floatV 7))
  ∧ expressionP 99 tokens832 0 =
      .ok (.binary (.binary (.literal (some (.floatV 8))) (opTok .MINUS "-")
              (.literal (some (.floatV 3)))) (opTok .MINUS "-")
            (.literal (some (.floatV 2))), 5)
  ∧ evalE [] (.binary (.binary (.literal (some (.floatV 8))) (opTok .MINUS "-")
          (.literal (some (.floatV 3)))) (opTok .MINUS "-")
        (.literal (some (.floatV 2)))) = .ok (some (.floatV 3)) := by
  refine ⟨by decide, ?_, by decide, ?_⟩ <;>
  · simp only [evalE, evalBinaryOp, derefV, Interp.add, Interp.multiply, Interp.subtract,
      Interp.checkNumberOperands, Value.isNumber, Value.toFloat64, opTok, bind, Except.bind,
      Except.map, pure]
    norm_num

/-- C9: `add` returns the Number sum when both operands are Numbers, the
String concatenation when both are Strings, and a type-mismatch runtime
error (`panic("Operands must be two numbers or two strings")`) for every
other operand pair. -/
theorem c9_add_semantics (l r : Value) :
    (l.isNumber = true → r.isNumber = true →
      Interp.add l r = .ok (.floatV (l.toFloat64 + r.toFloat64)))
  ∧ (l.isString = true → r.isString = true →
      Interp.add l r = .ok (.strV (l.strContent ++ r.strContent)))
  ∧ (¬(l.isNumber = true ∧ r.isNumber = true) →
     ¬(l.isString = true ∧ r.isString = true) →
      Interp.add l r = .error (.panicMsg "Operands must be two numbers or two strings")) := by
  cases l <;> cases r <;>
    simp [Interp.add, Value.isNumber, Value.isString, Value.toFloat64, Value.strContent]

/-- C9 witness: `"a" + "b"` concatenates to `"ab"`, `"a" + 1` is the
runtime type-mismatch error, and `1 + 2` is the Number 3. -/
theorem c9_add_semantics_witness :
    Interp.add (.strV "a") (.strV "b") = .ok (.strV "ab")
  ∧ Interp.add (.strV "a") (.floatV 1) =
      .error (.panicMsg "Operands must be two numbers or two strings")
  ∧ Interp.add (.floatV 1) (.floatV 2) = .ok (.floatV 3) := by
  refine ⟨(c9_add_semantics (.strV "a") (.strV "b")).2.1 rfl rfl,
    (c9_add_semantics (.strV "a") (.floatV 1)).2.2 (by decide) (by decide), ?_⟩
  have h := (c9_add_semantics (.floatV 1) (.floatV 2)).1 rfl rfl
  rw [h]
  norm_num [Value.toFloat64]

/-! ## C10: the parser never indexes outside the token list

The only places the parser touches the token slice are `peek`
(`tokens[current]`) and `previous` (`tokens[current-1]`); both are modelled
with the optional index, so a Go "index out of range" panic is exactly the
`.error .oob` outcome.  The safety statement is: on any token list that is
non-empty and ends with the EOF sentinel, no parser entry point ever
produces `.error .oob`, and every cursor it returns stays inside the
list (so `peek` always reads a valid element and the cursor never moves
past the EOF token). -/

/-- The well-formedness C10 assumes: a non-empty token sequence whose last
element is the EOF sentinel. -/
def eofTerminated (ts : List Token) : Prop :=
  ∃ t, ts.getLast? = some t ∧ t.type = TokenType.EOF

theorem eofTerminated_length_pos {ts : List Token} (h : eofTerminated ts) :
    0 < ts.length := by
  obtain ⟨t, hl, _⟩ := h
  cases ts with
  | nil => exact absurd hl (by simp)
  | cons a l => simp

/-- Advancing from a non-EOF token stays inside the list: the EOF sentinel
is the last element, so a non-EOF token cannot be the last one. -/
theorem cursor_step_lt {ts : List Token} (hE : eofTerminated ts) {cur : Nat}
    {t : Token} (hg : ts.get? cur = some t) (ht : t.type ≠ TokenType.EOF) :
    cur + 1 < ts.length := by
  obtain ⟨te, hl, hte⟩ := hE
  have hc : cur < ts.length := (List.get?_eq_some.mp hg).1
  rcases Nat.lt_or_ge (cur + 1) ts.length with h1 | h1
  · exact h1
  · exfalso
    have hcur_eq : cur = ts.length - 1 := by omega
    rw [List.getLast?_eq_getElem? ts, ← hcur_eq, ← List.get?_eq_getElem?, hg] at hl
    cases hl
    exact ht hte

theorem peekT_ok {ts : List Token} {cur : Nat} (hc : cur < ts.length) :
    ∃ t, ts.get? cur = some t ∧ peekT ts cur = .ok t := by
  cases hg : ts.get? cur with
  | none => exact absurd (List.get?_eq_none.mp hg) (by omega)
  | some t =>
    refine ⟨t, rfl, ?_⟩
    unfold peekT
    rw [hg]

theorem isAtEndT_ok {ts : List Token} {cur : Nat} {t : Token}
    (hg : ts.get? cur = some t) :
    isAtEndT ts cur = .ok (t.type == .EOF) := by
  have hp : peekT ts cur = .ok t := by unfold peekT; rw [hg]
  simp [isAtEndT, hp, bind, Except.bind, pure, Except.pure]

theorem previousT_ok {ts : List Token} {cur : Nat} {t : Token}
    (hg : ts.get? cur = some t) : previousT ts (cur + 1) = .ok t := by
  have hp : peekT ts cur = .ok t := by unfold peekT; rw [hg]
  simp [previousT, hp]

/-- `check` never panics while the cursor is in bounds, and a successful
check means the current token has the requested (non-EOF) type. -/
theorem checkT_ok {ts : List Token} {cur : Nat} {t : Token}
    (hg : ts.get? cur = some t) (tokenType : TokenType) :
    checkT ts cur tokenType = .ok (t.type != .EOF && t.type == tokenType) := by
  have hp : peekT ts cur = .ok t := by unfold peekT; rw [hg]
  by_cases he : t.type = TokenType.EOF
  · simp [checkT, isAtEndT_ok hg, he, bind, Except.bind, pure, Except.pure]
  · simp [checkT, isAtEndT_ok hg, he, hp, bind, Except.bind, pure, Except.pure]

/-- `advance` from an in-bounds, non-EOF token returns that token and the
incremented cursor. -/
theorem advanceT_ok {ts : List Token} {cur : Nat} {t : Token}
    (hg : ts.get? cur = some t) (ht : t.type ≠ TokenType.EOF) :
    advanceT ts cur = .ok (t, cur + 1) := by
  have hae : isAtEndT ts cur = .ok (t.type == .EOF) := isAtEndT_ok hg
  have he : (t.type == TokenType.EOF) = false := by simp [ht]
  rw [he] at hae
  simp [advanceT, hae, bind, Except.bind, previousT_ok hg, pure, Except.pure]

/-- `match` never panics while the cursor is in bounds: it either advances
one token (staying in bounds, because none of the requested types is EOF)
or reports no match with the cursor unchanged. -/
theorem matchT_ok {ts : List Token} (hE : eofTerminated ts) {cur : Nat}
    (hc : cur < ts.length) :
    ∀ tts : List TokenType,
      (matchT ts cur tts = .ok (true, cur + 1) ∧ cur + 1 < ts.length)
      ∨ matchT ts cur tts = .ok (false, cur) := by
  intro tts
  induction tts with
  | nil => right; rfl
  | cons tokenType rest ih =>
    obtain ⟨t, hg, _⟩ := peekT_ok hc
    have hch := checkT_ok hg tokenType
    by_cases hb : (t.type != TokenType.EOF && t.type == tokenType) = true
    · left
      have ht : t.type ≠ TokenType.EOF := by
        rcases Bool.and_eq_true_iff.mp hb with ⟨h1, _⟩
        simpa using h1
      refine ⟨?_, cursor_step_lt hE hg ht⟩
      simp [matchT, hch, hb, bind, Except.bind, advanceT_ok hg ht]
    · have hb' : (t.type != TokenType.EOF && t.type == tokenType) = false :=
        Bool.eq_false_iff.mpr hb
      rcases ih with ⟨h1, h2⟩ | h1
      · left
        refine ⟨?_, h2⟩
        simp [matchT, hch, hb', bind, Except.bind, h1]
      · right
        simp [matchT, hch, hb', bind, Except.bind, h1]

/-- `consume` never panics while the cursor is in bounds: it either
consumes the expected (non-EOF) token or returns the error message as
data with the cursor unchanged. -/
theorem consumeT_ok {ts : List Token} (hE : eofTerminated ts) {cur : Nat}
    (hc : cur < ts.length) (tokenType : TokenType) (msg : String) :
    (∃ t, consumeT ts cur tokenType msg = .ok ((t, none), cur + 1)
        ∧ cur + 1 < ts.length)
    ∨ consumeT ts cur tokenType msg = .ok ((zeroToken, some msg), cur) := by
  obtain ⟨t, hg, _⟩ := peekT_ok hc
  have hch := checkT_ok hg tokenType
  by_cases hb : (t.type != TokenType.EOF && t.type == tokenType) = true
  · left
    have ht : t.type ≠ TokenType.EOF := by
      rcases Bool.and_eq_true_iff.mp hb with ⟨h1, _⟩
      simpa using h1
    exact ⟨t, by simp [consumeT, hch, hb, bind, Except.bind, advanceT_ok hg ht],
      cursor_step_lt hE hg ht⟩
  · right
    have hb' : (t.type != TokenType.EOF && t.type == tokenType) = false :=
      Bool.eq_false_iff.mpr hb
    simp [consumeT, hch, hb', bind, Except.bind]

/-- The safety property tracked through every parser function: the run
does not raise an out-of-range index panic, and every cursor it returns
stays inside the token list. -/
def presOk {α : Type} (ts : List Token) (r : Except PErr (α × Nat)) : Prop :=
  r ≠ .error .oob ∧ ∀ a cur', r = .ok (a, cur') → cur' < ts.length

theorem presOk_error {α : Type} {ts : List Token} {e : PErr} (he : e ≠ .oob) :
    presOk ts (.error e : Except PErr (α × Nat)) := by
  refine ⟨by simpa using he, ?_⟩
  intro a cur' h
  exact absurd h (by simp)

theorem presOk_ok {α : Type} {ts : List Token} {a : α} {cur' : Nat}
    (h : cur' < ts.length) : presOk ts (.ok (a, cur')) := by
  refine ⟨by simp, ?_⟩
  intro b c hh
  simp only [Except.ok.injEq, Prod.mk.injEq] at hh
  omega

theorem presOk_bind {α β : Type} {ts : List Token} {x : Except PErr (α × Nat)}
    {f : α × Nat → Except PErr (β × Nat)}
    (hx : presOk ts x)
    (hf : ∀ a cur', x = .ok (a, cur') → cur' < ts.length → presOk ts (f (a, cur'))) :
    presOk ts (x >>= f) := by
  cases x with
  | error e =>
    have he : e ≠ .oob := by
      intro hcontra
      exact hx.1 (by rw [hcontra])
    simpa [bind, Except.bind] using presOk_error he
  | ok p =>
    obtain ⟨a, cur'⟩ := p
    have hlt := hx.2 a cur' rfl
    have := hf a cur' rfl hlt
    simpa [bind, Except.bind] using this

/-- The simultaneous induction behind C10: with the cursor in bounds on an
EOF-terminated token list, every parser function is index-safe and keeps
the cursor in bounds, at every fuel. -/
theorem parserFns_no_oob (fuel : Nat) :
    ∀ (ts : List Token), eofTerminated ts → ∀ cur, cur < ts.length →
      presOk ts (expressionP fuel ts cur)
    ∧ presOk ts (equalityP fuel ts cur)
    ∧ (∀ e, presOk ts (equalityLoopP fuel ts e cur))
    ∧ presOk ts (comparisonP fuel ts cur)
    ∧ (∀ e, presOk ts (comparisonLoopP fuel ts e cur))
    ∧ presOk ts (termP fuel ts cur)
    ∧ (∀ e, presOk ts (termLoopP fuel ts e cur))
    ∧ presOk ts (factorP fuel ts cur)
    ∧ (∀ e, presOk ts (factorLoopP fuel ts e cur))
    ∧ presOk ts (unaryP fuel ts cur)
    ∧ presOk ts (primaryP fuel ts cur)
    ∧ presOk ts (declarationP fuel ts cur)
    ∧ presOk ts (statementP fuel ts cur)
    ∧ presOk ts (varDeclarationP fuel ts cur)
    ∧ presOk ts (printStatementP fuel ts cur)
    ∧ presOk ts (expressionStatementP fuel ts cur)
    ∧ presOk ts (parseP fuel ts cur) := by
  induction fuel with
  | zero =>
    intro ts hE cur hc
    refine ⟨?_, ?_, fun e => ?_, ?_, fun e => ?_, ?_, fun e => ?_, ?_, fun e => ?_,
      ?_, ?_, ?_, ?_, ?_, ?_, ?_, ?_⟩ <;>
      exact presOk_error (by simp)
  | succ n ih =>
    intro ts hE cur hc
    have ihExpr := fun cur' (hc' : cur' < ts.length) => (ih ts hE cur' hc').1
    have ihEq := fun cur' (hc' : cur' < ts.length) => (ih ts hE cur' hc').2.1
    have ihEqLoop := fun cur' (hc' : cur' < ts.length) => (ih ts hE cur' hc').2.2.1
    have ihComp := fun cur' (hc' : cur' < ts.length) => (ih ts hE cur' hc').2.2.2.1
    have ihCompLoop := fun cur' (hc' : cur' < ts.length) => (ih ts hE cur' hc').2.2.2.2.1
    have ihTerm := fun cur' (hc' : cur' < ts.length) => (ih ts hE cur' hc').2.2.2.2.2.1
    have ihTermLoop := fun cur' (hc' : cur' < ts.length) => (ih ts hE cur' hc').2.2.2.2.2.2.1
    have ihFactor := fun cur' (hc' : cur' < ts.length) => (ih ts hE cur' hc').2.2.2.2.2.2.2.1
    have ihFactorLoop := fun cur' (hc' : cur' < ts.length) =>
      (ih ts hE cur' hc').2.2.2.2.2.2.2.2.1
    have ihUnary := fun cur' (hc' : cur' < ts.length) =>
      (ih ts hE cur' hc').2.2.2.2.2.2.2.2.2.1
    have ihPrimary := fun cur' (hc' : cur' < ts.length) =>
      (ih ts hE cur' hc').2.2.2.2.2.2.2.2.2.2.1
    have ihDecl := fun cur' (hc' : cur' < ts.length) =>
      (ih ts hE cur' hc').2.2.2.2.2.2.2.2.2.2.2.1
    have ihStmt := fun cur' (hc' : cur' < ts.length) =>
      (ih ts hE cur' hc').2.2.2.2.2.2.2.2.2.2.2.2.1
    have ihVarDecl := fun cur' (hc' : cur' < ts.length) =>
      (ih ts hE cur' hc').2.2.2.2.2.2.2.2.2.2.2.2.2.1
    have ihPrint := fun cur' (hc' : cur' < ts.length) =>
      (ih ts hE cur' hc').2.2.2.2.2.2.2.2.2.2.2.2.2.2.1
    have ihExprStmt := fun cur' (hc' : cur' < ts.length) =>
      (ih ts hE cur' hc').2.2.2.2.2.2.2.2.2.2.2.2.2.2.2.1
    have ihParse := fun cur' (hc' : cur' < ts.length) =>
      (ih ts hE cur' hc').2.2.2.2.2.2.2.2.2.2.2.2.2.2.2.2
    clear ih
    have semiOk : ∀ {α : Type} cur1, cur1 < ts.length →
        ∀ k : (Token × Option String) × Nat → Except PErr (α × Nat),
        (∀ t cur2, cur2 < ts.length → presOk ts (k ((t, none), cur2))) →
        (∀ msg cur2, cur2 < ts.length → presOk ts (k ((zeroToken, some msg), cur2))) →
        presOk ts
          (consumeT ts cur1 .SEMICOLON "expect ';' after expression" >>= k) := by
      intro α cur1 hlt1 k hok herr
      rcases consumeT_ok hE hlt1 TokenType.SEMICOLON "expect ';' after expression"
        with ⟨t2, hcs, hlt2⟩ | hcs
      · rw [hcs]
        simpa [bind, Except.bind] using hok t2 (cur1 + 1) hlt2
      · rw [hcs]
        simpa [bind, Except.bind] using herr "expect ';' after expression" cur1 hlt1
    refine ⟨?_, ?_, fun e => ?_, ?_, fun e => ?_, ?_, fun e => ?_, ?_, fun e => ?_,
      ?_, ?_, ?_, ?_, ?_, ?_, ?_, ?_⟩
    · -- expressionP
      simp only [expressionP]
      exact ihEq cur hc
    · -- equalityP
      simp only [equalityP]
      exact presOk_bind (ihComp cur hc) (fun a cur1 _ hlt1 => ihEqLoop cur1 hlt1 a)
    · -- equalityLoopP
      simp only [equalityLoopP]
      rcases matchT_ok hE hc [TokenType.BANG_EQUAL, TokenType.EQUAL_EQUAL] with ⟨hm, hlt⟩ | hm
      · obtain ⟨t, hg, _⟩ := peekT_ok hc
        rw [hm]
        simp only [bind, Except.bind, previousT_ok hg, if_true]
        exact presOk_bind (ihComp (cur + 1) hlt)
          (fun a cur2 _ hlt2 => ihEqLoop cur2 hlt2 (.binary e t a))
      · rw [hm]
        simp only [bind, Except.bind]
        exact presOk_ok hc
    · -- comparisonP
      simp only [comparisonP]
      exact presOk_bind (ihTerm cur hc) (fun a cur1 _ hlt1 => ihCompLoop cur1 hlt1 a)
    · -- comparisonLoopP
      simp only [comparisonLoopP]
      rcases matchT_ok hE hc
          [TokenType.GREATER, TokenType.GREATER_EQUAL, TokenType.LESS, TokenType.LESS_EQUAL]
        with ⟨hm, hlt⟩ | hm
      · obtain ⟨t, hg, _⟩ := peekT_ok hc
        rw [hm]
        simp only [bind, Except.bind, previousT_ok hg, if_true]
        exact presOk_bind (ihTerm (cur + 1) hlt)
          (fun a cur2 _ hlt2 => ihCompLoop cur2 hlt2 (.binary e t a))
      · rw [hm]
        simp only [bind, Except.bind]
        exact presOk_ok hc
    · -- termP
      simp only [termP]
      exact presOk_bind (ihFactor cur hc) (fun a cur1 _ hlt1 => ihTermLoop cur1 hlt1 a)
    · -- termLoopP
      simp only [termLoopP]
      rcases matchT_ok hE hc [TokenType.MINUS, TokenType.PLUS] with ⟨hm, hlt⟩ | hm
      · obtain ⟨t, hg, _⟩ := peekT_ok hc
        rw [hm]
        simp only [bind, Except.bind, previousT_ok hg, if_true]
        exact presOk_bind (ihFactor (cur + 1) hlt)
          (fun a cur2 _ hlt2 => ihTermLoop cur2 hlt2 (.binary e t a))
      · rw [hm]
        simp only [bind, Except.bind]
        exact presOk_ok hc
    · -- factorP
      simp only [factorP]
      exact presOk_bind (ihUnary cur hc) (fun a cur1 _ hlt1 => ihFactorLoop cur1 hlt1 a)
    · -- factorLoopP
      simp only [factorLoopP]
      rcases matchT_ok hE hc [TokenType.SLASH, TokenType.STAR] with ⟨hm, hlt⟩ | hm
      · obtain ⟨t, hg, _⟩ := peekT_ok hc
        rw [hm]
        simp only [bind, Except.bind, previousT_ok hg, if_true]
        exact presOk_bind (ihUnary (cur + 1) hlt)
          (fun a cur2 _ hlt2 => ihFactorLoop cur2 hlt2 (.binary e t a))
      · rw [hm]
        simp only [bind, Except.bind]
        exact presOk_ok hc
    · -- unaryP
      simp only [unaryP]
      rcases matchT_ok hE hc [TokenType.BANG, TokenType.MINUS] with ⟨hm, hlt⟩ | hm
      · obtain ⟨t, hg, _⟩ := peekT_ok hc
        rw [hm]
        simp only [bind, Except.bind, previousT_ok hg, if_true]
        exact presOk_bind (ihUnary (cur + 1) hlt) (fun a cur2 _ hlt2 => presOk_ok hlt2)
      · rw [hm]
        simp only [bind, Except.bind]
        exact ihPrimary cur hc
    · -- primaryP
      simp only [primaryP]
      rcases matchT_ok hE hc
          [TokenType.NUMBER, TokenType.STRING, TokenType.TRUE, TokenType.FALSE, TokenType.NIL]
        with ⟨hm, hlt⟩ | hm
      · obtain ⟨t, hg, _⟩ := peekT_ok hc
        rw [hm]
        simp only [bind, Except.bind, previousT_ok hg, if_true]
        obtain ⟨tt, lex, lit, ln⟩ := t
        cases tt <;> cases lit <;>
          first
            | exact presOk_ok hlt
            | exact presOk_error (by simp)
      · rw [hm]
        simp only [bind, Except.bind]
        rcases matchT_ok hE hc [TokenType.IDENTIFIER] with ⟨hmi, hlti⟩ | hmi
        · obtain ⟨t, hg, _⟩ := peekT_ok hc
          rw [hmi]
          simp only [bind, Except.bind, previousT_ok hg, if_true]
          exact presOk_ok hlti
        · rw [hmi]
          simp only [bind, Except.bind]
          rcases matchT_ok hE hc [TokenType.LEFT_PAREN] with ⟨hmp, hltp⟩ | hmp
          · rw [hmp]
            simp only [bind, Except.bind, if_true]
            refine presOk_bind (ihExpr (cur + 1) hltp) (fun a cur4 _ hlt4 => ?_)
            rcases consumeT_ok hE hlt4 TokenType.RIGHT_PAREN "expect ')' after expression"
              with ⟨t2, hcs, hlt5⟩ | hcs
            · rw [hcs]
              simpa [bind, Except.bind] using @presOk_ok Expr ts a (cur4 + 1) hlt5
            · rw [hcs]
              simpa [bind, Except.bind] using
                @presOk_error Expr ts (PErr.fatal "expect ')' after expression") (by simp)
          · rw [hmp]
            simp only [bind, Except.bind]
            exact presOk_ok hc
    · -- declarationP
      simp only [declarationP]
      rcases matchT_ok hE hc [TokenType.VAR] with ⟨hm, hlt⟩ | hm
      · rw [hm]
        simp only [bind, Except.bind, if_true]
        exact ihVarDecl (cur + 1) hlt
      · rw [hm]
        simp only [bind, Except.bind]
        exact ihStmt cur hc
    · -- statementP
      simp only [statementP]
      rcases matchT_ok hE hc [TokenType.PRINT] with ⟨hm, hlt⟩ | hm
      · rw [hm]
        simp only [bind, Except.bind, if_true]
        exact ihPrint (cur + 1) hlt
      · rw [hm]
        simp only [bind, Except.bind]
        exact ihExprStmt cur hc
    · -- varDeclarationP
      simp only [varDeclarationP]
      rcases consumeT_ok hE hc TokenType.IDENTIFIER "expect variable name"
        with ⟨t, hcs, hlt⟩ | hcs
      · rw [hcs]
        simp only [bind, Except.bind]
        rcases matchT_ok hE hlt [TokenType.EQUAL] with ⟨hm, hlt2⟩ | hm
        · rw [hm]
          simp only [bind, Except.bind, if_true]
          refine presOk_bind (ihExpr (cur + 1 + 1) hlt2) (fun a cur3 _ hlt3 => ?_)
          refine semiOk cur3 hlt3 _ ?_ ?_
          · intro t2 cur4 hlt4
            exact presOk_ok hlt4
          · intro msg cur4 hlt4
            exact presOk_error (by simp)
        · rw [hm]
          simp only [bind, Except.bind]
          refine semiOk (cur + 1) hlt _ ?_ ?_
          · intro t2 cur4 hlt4
            exact presOk_ok hlt4
          · intro msg cur4 hlt4
            exact presOk_error (by simp)
      · rw [hcs]
        simp only [bind, Except.bind]
        exact presOk_error (by simp)
    · -- printStatementP
      simp only [printStatementP]
      refine presOk_bind (ihExpr cur hc) (fun a cur1 _ hlt1 => ?_)
      refine semiOk cur1 hlt1 _ ?_ ?_
      · intro t2 cur4 hlt4
        exact presOk_ok hlt4
      · intro msg cur4 hlt4
        exact presOk_error (by simp)
    · -- expressionStatementP
      simp only [expressionStatementP]
      refine presOk_bind (ihExpr cur hc) (fun a cur1 _ hlt1 => ?_)
      refine semiOk cur1 hlt1 _ ?_ ?_
      · intro t2 cur4 hlt4
        exact presOk_ok hlt4
      · intro msg cur4 hlt4
        exact presOk_error (by simp)
    · -- parseP
      simp only [parseP]
      obtain ⟨t, hg, _⟩ := peekT_ok hc
      have hae := isAtEndT_ok hg
      cases hb : (t.type == TokenType.EOF) with
      | true =>
        rw [hb] at hae
        rw [hae]
        simp only [bind, Except.bind, if_true]
        exact presOk_ok hc
      | false =>
        rw [hb] at hae
        rw [hae]
        simp only [bind, Except.bind]
        exact presOk_bind (ihDecl cur hc) (fun a cur1 _ hlt1 =>
          presOk_bind (ihParse cur1 hlt1) (fun b cur2 _ hlt2 => presOk_ok hlt2))

/-- C10: `Parse` on any non-empty token sequence ending in the EOF
sentinel never accesses an index outside the sequence — the optional
indexing of `peek` and `previous` (the only token-slice accesses) never
fails, which also means the cursor never advances past the EOF token and
`previous` is only reached with at least one token consumed.  This holds
at every fuel, i.e. for every finite prefix of the run. -/
theorem c10_parse_in_bounds (fuel : Nat) (ts : List Token)
    (h : eofTerminated ts) : parseP fuel ts 0 ≠ .error .oob := by
  obtain ⟨-, -, -, -, -, -, -, -, -, -, -, -, -, -, -, -, hp⟩ :=
    parserFns_no_oob fuel ts h 0 (eofTerminated_length_pos h)
  exact hp.1

/-- C10 witness: the statement `1;` followed by EOF parses without any
out-of-bounds access. -/
theorem c10_parse_in_bounds_witness :
    parseP 99 [numTok 1 "1", opTok .SEMICOLON ";", eofTok] 0 ≠ .error .oob :=
  c10_parse_in_bounds 99 [numTok 1 "1", opTok .SEMICOLON ";", eofTok]
    ⟨eofTok, by decide, by decide⟩

end InterpGo
